import Mathlib

/-!
Verification of the dispute-coordinator subsystem of this repository
(`node/core/dispute-coordinator/src/initialized.rs`).

The embedding translates the Rust code of `initialized.rs` into pure Lean
functions with explicit state passing.  Collaborators that are not part of
the sources (the vote-state engine in `crate::import`, `SpamSlots`,
`ChainScraper`, `DisputeStatus`, `DISPUTE_WINDOW`, `is_potential_spam`,
`db::v1`, the keystore) are modelled from the spec, as documented on each
definition; their outputs enter the embedded functions as explicit inputs,
so theorems quantify over every possible collaborator behaviour.

Machine integers (`u32` session indices and block numbers) are modelled as
`Nat`; Rust `saturating_sub` coincides with `Nat` subtraction.  Overflow of
block-number arithmetic is not modelled, as block numbers and session
indices stay far below `2 ^ 32` in every reachable state.
-/

namespace DisputeCoordinator

/-- Modelled from the spec: the fixed dispute window `W` ("the fixed dispute
window (e.g. 6)", §3).  The constant `DISPUTE_WINDOW` itself lives in
`polkadot-node-primitives`, which is not among the sources. -/
def DISPUTE_WINDOW : Nat := 6

/-- Modelled from the spec: the dispute lifecycle tag, `Active | Confirmed |
ConcludedFor(ts) | ConcludedAgainst(ts) | PostConcluded` (§3, data model).
The type lives in `polkadot-node-primitives`, which is not among the
sources. -/
inductive DisputeStatus where
  | Active
  | Confirmed
  | ConcludedFor (ts : Nat)
  | ConcludedAgainst (ts : Nat)
  | PostConcluded
  deriving DecidableEq

/-- Modelled from the spec: "anything other than `ConcludedFor` counts as
possibly-invalid" (§4.7). -/
def DisputeStatus.is_possibly_invalid : DisputeStatus → Bool
  | .ConcludedFor _ => false
  | _ => true

/-- The recent-disputes store: an ordered map from `(session, candidate)` to
`DisputeStatus`, embedded as an association list. -/
abbrev RecentDisputes := List ((Nat × Nat) × DisputeStatus)

/-- Association-list lookup keyed by `(session, candidate)` pairs. -/
def assocLookup {α : Type} : List ((Nat × Nat) × α) → (Nat × Nat) → Option α
  | [], _ => none
  | (k, v) :: t, key => if k = key then some v else assocLookup t key

/-- Association-list insert-or-overwrite keyed by `(session, candidate)`
pairs (the effect of `entry(..).or_insert(..)` followed by assignment). -/
def assocInsert {α : Type} : List ((Nat × Nat) × α) → (Nat × Nat) → α → List ((Nat × Nat) × α)
  | [], key, v => [(key, v)]
  | (k, v') :: t, key, v => if k = key then (key, v) :: t else (k, v') :: assocInsert t key v

/-- A `BlockDescription { block_hash, session, candidates }` as received by
`DetermineUndisputedChain`; hashes are opaque and embedded as `Nat`. -/
structure BlockDescription where
  block_hash : Nat
  session : Nat
  candidates : List Nat
  deriving DecidableEq

/-- The closure `is_possibly_invalid` of `determine_undisputed_chain`
(initialized.rs:1371): look the pair up in the recent-disputes store and
apply `DisputeStatus::is_possibly_invalid`, defaulting to `false`. -/
def recent_dispute_possibly_invalid (rd : RecentDisputes) (session candidate_hash : Nat) : Bool :=
  match assocLookup rd (session, candidate_hash) with
  | none => false
  | some status => status.is_possibly_invalid

/-- The loop-body test of `determine_undisputed_chain`
(initialized.rs:1378): does any candidate of the block description count as
possibly invalid? -/
def block_has_possibly_invalid (rd : RecentDisputes) (bd : BlockDescription) : Bool :=
  bd.candidates.any (fun c => recent_dispute_possibly_invalid rd bd.session c)

/-- The `enumerate`-and-return loop of `determine_undisputed_chain`
(initialized.rs:1377): index of the first block description satisfying
`bad`, counting from `i`. -/
def find_first_disputed (bad : BlockDescription → Bool) : Nat → List BlockDescription → Option Nat
  | _, [] => none
  | i, d :: rest => if bad d then some i else find_first_disputed bad (i + 1) rest

/-- The `last` binding of `determine_undisputed_chain`
(initialized.rs:1359-1362): the last described block, or the base when no
block is described. -/
def undisputed_last (base_number base_hash : Nat)
    (block_descriptions : List BlockDescription) : Nat × Nat :=
  match block_descriptions.getLast? with
  | some e => (base_number + block_descriptions.length, e.block_hash)
  | none => (base_number, base_hash)

/-- `determine_undisputed_chain` (initialized.rs:1353-1388).  The
`recent_disputes` argument is the value returned by
`overlay_db.load_recent_disputes()` (`none` when the store is absent). -/
def determine_undisputed_chain (recent_disputes : Option RecentDisputes)
    (base_number base_hash : Nat) (block_descriptions : List BlockDescription) : Nat × Nat :=
  match recent_disputes with
  | none => undisputed_last base_number base_hash block_descriptions
  | some rd =>
    if rd.isEmpty then undisputed_last base_number base_hash block_descriptions
    else
      match find_first_disputed (block_has_possibly_invalid rd) 0 block_descriptions with
      | none => undisputed_last base_number base_hash block_descriptions
      | some i =>
        if i = 0 then (base_number, base_hash)
        else (base_number + i, ((block_descriptions.get? (i - 1)).map (fun b => b.block_hash)).getD 0)

/-- Written from the spec's words (§4.7), for comparison with the code:
"return the highest block whose entire prefix (starting just above the
base) contains no candidate that is possibly-invalid.  If the first block
already contains such a candidate, return `(base_number, base_hash)`.  If
there are no disputes at all, return the last block."  The highest such
block sits at the length of the longest clean prefix of the descriptions:
position `0` is the base itself, position `g > 0` is description `g - 1`
(whose number is `base_number + g`, descriptions being sorted by ascending
number starting just above the base). -/
def undisputed_chain_spec (recent_disputes : Option RecentDisputes)
    (base_number base_hash : Nat) (block_descriptions : List BlockDescription) : Nat × Nat :=
  let g := (block_descriptions.takeWhile
      (fun bd => !(block_has_possibly_invalid (recent_disputes.getD []) bd))).length
  if g = 0 then (base_number, base_hash)
  else (base_number + g, ((block_descriptions.get? (g - 1)).map (fun b => b.block_hash)).getD 0)

theorem find_first_disputed_spec (bad : BlockDescription → Bool) :
    ∀ (l : List BlockDescription) (k : Nat),
      find_first_disputed bad k l =
        if (l.takeWhile (fun d => !bad d)).length = l.length then none
        else some (k + (l.takeWhile (fun d => !bad d)).length)
  | [], k => by simp [find_first_disputed]
  | d :: rest, k => by
    by_cases hbad : bad d
    · simp [find_first_disputed, hbad, List.takeWhile]
    · have ih := find_first_disputed_spec bad rest (k + 1)
      simp only [find_first_disputed, hbad, if_neg, List.takeWhile, Bool.not_eq_true']
      simp only [hbad, Bool.not_false, ih, List.length_cons]
      by_cases hlen : (rest.takeWhile (fun d => !bad d)).length = rest.length
      · simp [hlen]
      · have : ¬((rest.takeWhile (fun d => !bad d)).length + 1 = rest.length + 1) := by omega
        simp [hlen, this]
        omega

theorem takeWhile_length_le (p : BlockDescription → Bool) :
    ∀ l : List BlockDescription, (l.takeWhile p).length ≤ l.length
  | [] => by simp
  | d :: rest => by
    by_cases h : p d
    · simpa [List.takeWhile, h] using takeWhile_length_le p rest
    · simp [List.takeWhile, h]

theorem takeWhile_all (p : BlockDescription → Bool) :
    ∀ l : List BlockDescription, (∀ d ∈ l, p d = true) → l.takeWhile p = l
  | [], _ => rfl
  | d :: rest, h => by
    have hd : p d = true := h d (by simp)
    simpa [List.takeWhile, hd] using takeWhile_all p rest (fun x hx => h x (by simp [hx]))

theorem getLast?_eq_get?_length_sub_one {α : Type} :
    ∀ l : List α, l.getLast? = l.get? (l.length - 1)
  | [] => rfl
  | [a] => rfl
  | a :: b :: t => by
    have ih := getLast?_eq_get?_length_sub_one (b :: t)
    simp only [List.getLast?_cons_cons, ih, List.length_cons, List.get?]
    simp

/-- On an empty store nothing is possibly invalid. -/
theorem block_has_possibly_invalid_nil (bd : BlockDescription) :
    block_has_possibly_invalid [] bd = false := by
  simp only [block_has_possibly_invalid, List.any_eq_false]
  intro c _
  simp [recent_dispute_possibly_invalid, assocLookup]

/-- When every description is clean the resolver yields the last block. -/
theorem undisputed_last_eq_spec (base_number base_hash : Nat)
    (block_descriptions : List BlockDescription) (rd : Option RecentDisputes)
    (hclean : (block_descriptions.takeWhile
        (fun bd => !(block_has_possibly_invalid (rd.getD []) bd))).length
      = block_descriptions.length) :
    undisputed_last base_number base_hash block_descriptions
      = undisputed_chain_spec rd base_number base_hash block_descriptions := by
  unfold undisputed_last undisputed_chain_spec
  cases hbd : block_descriptions with
  | nil => simp [hbd]
  | cons x xs =>
    subst hbd
    have hlen : (x :: xs).length ≠ 0 := by simp
    rw [hclean, if_neg hlen]
    rw [getLast?_eq_get?_length_sub_one (x :: xs)]
    cases hg : (x :: xs).get? ((x :: xs).length - 1) with
    | none =>
      exfalso
      have : (x :: xs).length - 1 < (x :: xs).length := by simp
      rw [List.get?_eq_none] at hg
      omega
    | some e => simp [hg]

theorem clean_on_empty_store (block_descriptions : List BlockDescription) :
    (block_descriptions.takeWhile
        (fun bd => !(block_has_possibly_invalid [] bd))).length
      = block_descriptions.length := by
  rw [takeWhile_all]
  intro d _
  simp [block_has_possibly_invalid_nil]

theorem determine_undisputed_chain_eq_spec (rd : Option RecentDisputes)
    (base_number base_hash : Nat) (block_descriptions : List BlockDescription) :
    determine_undisputed_chain rd base_number base_hash block_descriptions
      = undisputed_chain_spec rd base_number base_hash block_descriptions := by
  cases rd with
  | none =>
    show undisputed_last base_number base_hash block_descriptions = _
    apply undisputed_last_eq_spec
    simp only [Option.getD_none]
    exact clean_on_empty_store block_descriptions
  | some store =>
    cases store with
    | nil =>
      show undisputed_last base_number base_hash block_descriptions = _
      apply undisputed_last_eq_spec base_number base_hash block_descriptions (some [])
      simp only [Option.getD_some]
      exact clean_on_empty_store block_descriptions
    | cons p t =>
      show (match find_first_disputed (block_has_possibly_invalid (p :: t)) 0 block_descriptions with
        | none => undisputed_last base_number base_hash block_descriptions
        | some i =>
          if i = 0 then (base_number, base_hash)
          else (base_number + i,
            ((block_descriptions.get? (i - 1)).map
              (fun (b : BlockDescription) => b.block_hash)).getD 0)) = _
      rw [find_first_disputed_spec]
      set g := (block_descriptions.takeWhile
          (fun d => !(block_has_possibly_invalid (p :: t) d))).length with hg
      by_cases hall : g = block_descriptions.length
      · rw [if_pos hall]
        show undisputed_last base_number base_hash block_descriptions = _
        apply undisputed_last_eq_spec base_number base_hash block_descriptions (some (p :: t))
        simp only [Option.getD_some]
        rw [← hg]
        exact hall
      · rw [if_neg hall]
        show (if 0 + g = 0 then (base_number, base_hash) else _) = _
        simp only [Nat.zero_add]
        by_cases hz : g = 0
        · rw [if_pos hz]
          unfold undisputed_chain_spec
          simp only [Option.getD_some]
          rw [← hg, if_pos hz]
        · rw [if_neg hz]
          unfold undisputed_chain_spec
          simp only [Option.getD_some]
          rw [← hg, if_neg hz]

/-- Claim C1: for every call to the undisputed-chain resolver with a base
`(base_number, base_hash)` and a forward sequence of block descriptions
sorted by ascending number, the result is the highest block whose entire
prefix above the base contains no candidate whose recent-dispute status is
possibly-invalid (anything other than `ConcludedFor`); if the first
description already contains such a candidate the result is
`(base_number, base_hash)` (the spec side yields clean-prefix length `0`),
and if the recent-disputes store is absent or empty the result is the last
described block (every prefix is then clean).  Stated as: the code agrees
with `undisputed_chain_spec`, which is written from the spec's words. -/
theorem c1_undisputed_chain_resolver_correct (rd : Option RecentDisputes)
    (base_number base_hash : Nat) (block_descriptions : List BlockDescription) :
    determine_undisputed_chain rd base_number base_hash block_descriptions
      = undisputed_chain_spec rd base_number base_hash block_descriptions :=
  determine_undisputed_chain_eq_spec rd base_number base_hash block_descriptions

/-- Spec scenario 5 as a sanity check: base `(10, 100)`, three descriptions
at numbers 11, 12, 13 with hashes 101, 102, 103, candidates 1, 2, 3 in
session 5, and `(5, 2)` active in the store: the resolver returns
`(11, 101)`. -/
theorem undisputed_chain_scenario_five :
    determine_undisputed_chain (some [((5, 2), DisputeStatus.Active)]) 10 100
      [⟨101, 5, [1]⟩, ⟨102, 5, [2]⟩, ⟨103, 5, [3]⟩] = (11, 101) := by decide

/-- Claim C8: for every input to the undisputed-chain resolver, the block
number of the returned pair lies in `[base_number, base_number +
len(descriptions)]`. -/
theorem c8_undisputed_chain_number_in_range (rd : Option RecentDisputes)
    (base_number base_hash : Nat) (block_descriptions : List BlockDescription) :
    base_number ≤ (determine_undisputed_chain rd base_number base_hash block_descriptions).1
    ∧ (determine_undisputed_chain rd base_number base_hash block_descriptions).1
        ≤ base_number + block_descriptions.length := by
  rw [determine_undisputed_chain_eq_spec]
  unfold undisputed_chain_spec
  have hle := takeWhile_length_le
    (fun bd => !(block_has_possibly_invalid (rd.getD []) bd)) block_descriptions
  by_cases hz : (block_descriptions.takeWhile
      (fun bd => !(block_has_possibly_invalid (rd.getD []) bd))).length = 0
  · rw [if_pos hz]
    constructor
    · exact Nat.le_refl base_number
    · exact Nat.le_add_right base_number block_descriptions.length
  · rw [if_neg hz]
    constructor
    · exact Nat.le_add_right base_number _
    · exact Nat.add_le_add_left hle base_number

/-- Claim C10: for every call to the undisputed-chain resolver with an
empty list of block descriptions, the result is exactly
`(base_number, base_hash)`, regardless of the contents of the
recent-disputes store. -/
theorem c10_undisputed_chain_empty_descriptions (rd : Option RecentDisputes)
    (base_number base_hash : Nat) :
    determine_undisputed_chain rd base_number base_hash [] = (base_number, base_hash) := by
  cases rd with
  | none => rfl
  | some store => cases store with
    | nil => rfl
    | cons p t => simp [determine_undisputed_chain, find_first_disputed, undisputed_last]

/-! ## Spam slots (modelled from the spec, §4.3 and §9)

`SpamSlots` lives in `spam_slots.rs`, which is not among the sources.  Per
the spec it keeps `count[(session, validator)]` plus a `seen` set of
`(session, candidate, validator)` triples, with a fixed slot limit. -/

/-- Modelled from the spec: per-(session, validator) spam-slot counters with
the dual `seen` index of already-counted `(session, candidate, validator)`
triples (§4.3, §9).  `limit` is the abstract slot limit. -/
structure SpamSlots where
  limit : Nat
  counts : List ((Nat × Nat) × Nat)
  seen : List (Nat × Nat × Nat)
  deriving DecidableEq

/-- Count for a `(session, validator)` pair, zero when absent. -/
def getCount : List ((Nat × Nat) × Nat) → (Nat × Nat) → Nat
  | [], _ => 0
  | (k, n) :: t, key => if k = key then n else getCount t key

/-- Increment the count for a key, inserting it at one when absent. -/
def bumpCount : List ((Nat × Nat) × Nat) → (Nat × Nat) → List ((Nat × Nat) × Nat)
  | [], key => [(key, 1)]
  | (k, n) :: t, key => if k = key then (k, n + 1) :: t else (k, n) :: bumpCount t key

/-- Decrement the count for a key (saturating at zero). -/
def decCount : List ((Nat × Nat) × Nat) → (Nat × Nat) → List ((Nat × Nat) × Nat)
  | [], _ => []
  | (k, n) :: t, key => if k = key then (k, n - 1) :: t else (k, n) :: decCount t key

/-- Modelled from the spec: "if (session, candidate, validator) already
counted, returns true; otherwise, if count for (session, validator) < slot
limit, increments and returns true; else returns false" (§4.3). -/
def SpamSlots.add_unconfirmed (sl : SpamSlots) (session candidate validator : Nat) :
    Bool × SpamSlots :=
  if (session, candidate, validator) ∈ sl.seen then (true, sl)
  else if getCount sl.counts (session, validator) < sl.limit then
    (true,
      { sl with
        seen := (session, candidate, validator) :: sl.seen,
        counts := bumpCount sl.counts (session, validator) })
  else (false, sl)

/-- Modelled from the spec: "removes all counts attributable to this
candidate across all validators" (§4.3). -/
def SpamSlots.clear (sl : SpamSlots) (session candidate : Nat) : SpamSlots :=
  let removed := sl.seen.filter (fun e => e.1 == session && e.2.1 == candidate)
  { sl with
    seen := sl.seen.filter (fun e => !(e.1 == session && e.2.1 == candidate)),
    counts := removed.foldl (fun cs e => decCount cs (e.1, e.2.2)) sl.counts }

/-- Modelled from the spec: "drops every entry with session < threshold"
(§4.3). -/
def SpamSlots.prune_old (sl : SpamSlots) (threshold : Nat) : SpamSlots :=
  { sl with
    seen := sl.seen.filter (fun e => decide (threshold ≤ e.1)),
    counts := sl.counts.filter (fun e => decide (threshold ≤ e.1.1)) }

/-! ## Candidate data and the overlay -/

/-- The parts of a `CandidateReceipt` the coordinator reads: its hash and
its relay parent (both opaque, embedded as `Nat`). -/
structure CandidateReceiptData where
  chash : Nat
  relay_parent : Nat
  deriving DecidableEq

/-- A stored `CandidateVotes` row.  The vote maps themselves belong to the
vote-state engine (`crate::import`, not among the sources) and are
abstracted into an opaque `payload`; the coordinator only moves whole rows
between the engine and the overlay and reads the receipt for relay-parent
resolution. -/
structure CandidateVotesData where
  receipt : CandidateReceiptData
  payload : Nat
  deriving DecidableEq

/-- The overlay-wrapped backend (`OverlayedBackend`): the three logical
columns, plus a `dirty` bit recording whether any write was buffered
(`is_empty()` is `!dirty`). -/
structure Overlay where
  earliest_session : Option Nat
  recent_disputes : Option RecentDisputes
  candidate_votes : List ((Nat × Nat) × CandidateVotesData)
  dirty : Bool
  deriving DecidableEq

/-- `overlay_db.load_candidate_votes(session, candidate)`. -/
def Overlay.load_candidate_votes (ov : Overlay) (session candidate : Nat) :
    Option CandidateVotesData :=
  assocLookup ov.candidate_votes (session, candidate)

/-- `overlay_db.write_candidate_votes(session, candidate, votes)`. -/
def Overlay.write_candidate_votes (ov : Overlay) (session candidate : Nat)
    (votes : CandidateVotesData) : Overlay :=
  { ov with
    candidate_votes := assocInsert ov.candidate_votes (session, candidate) votes,
    dirty := true }

/-- `overlay_db.write_recent_disputes(..)`. -/
def Overlay.write_recent_disputes (ov : Overlay) (rd : RecentDisputes) : Overlay :=
  { ov with recent_disputes := some rd, dirty := true }

/-- Modelled from the spec: `db::v1::note_earliest_session` persists the
earliest-session marker (§4.8: "persist `earliest_session = session_idx −
(W−1)`"); `db::v1` is not among the sources. -/
def note_earliest_session (ov : Overlay) (session : Nat) : Overlay :=
  { ov with earliest_session := some session, dirty := true }

/-! ## Vote-state engine outputs (oracle inputs)

The vote-state engine (`crate::import`) is not among the sources.  Its
output — `CandidateVoteState` predicates and the `ImportResult` transition
flags described in spec §4.4 — enters the embedded import handler as an
explicit input, so all theorems below quantify over every possible engine
behaviour. -/

/-- Modelled from the spec: the derived predicates of the post-import
`CandidateVoteState` used by `handle_import_statements` (§4.4), plus the
receipt the participation request is built from and the validator indices
of our own approval votes. -/
structure NewState where
  candidate_receipt : CandidateReceiptData
  own_vote_missing : Bool
  is_disputed : Bool
  is_confirmed : Bool
  dispute_status : Option DisputeStatus
  own_approval_votes : List Nat
  deriving DecidableEq

/-- Modelled from the spec: the `ImportResult` of the vote-state engine
(§4.4): new state, new invalid voters, transition flags, and the updated
votes row yielded by `into_updated_votes()`. -/
structure ImportResult where
  new_state : NewState
  new_invalid_voters : List Nat
  is_freshly_disputed : Bool
  is_freshly_concluded_for : Bool
  is_freshly_concluded_against : Bool
  dispute_state_changed : Bool
  updated_votes : Option CandidateVotesData
  deriving DecidableEq

/-- `ImportResult::is_freshly_concluded`: freshly concluded on either
side. -/
def ImportResult.is_freshly_concluded (ir : ImportResult) : Bool :=
  ir.is_freshly_concluded_for || ir.is_freshly_concluded_against

/-- The parts of `CandidateEnvironment` the handler reads: the session's
validators (public keys, opaque) and the validator indices controlled by
the local keystore.  `CandidateEnvironment::new` returning `None` is
modelled by an `Option EnvData` input. -/
structure EnvData where
  validators : List Nat
  controlled_indices : List Nat
  deriving DecidableEq

/-- All collaborator answers consumed by one call to
`handle_import_statements`: the engine's `ImportResult` for the new
statements, the engine's result after folding approval votes (only
reachable through the disabled guard), the candidate environment, the
chain-scraper answers, and the keystore-derived local statements used by
`issue_local_statement`. -/
structure ImportInputs where
  import_result : ImportResult
  approval_result : ImportResult
  env : Option EnvData
  is_included : Bool
  is_backed : Bool
  blocks_including : List (Nat × Nat)
  local_statements : List Nat
  deriving DecidableEq

/-- `ImportStatementsResult`. -/
inductive ImportStatementsResult where
  | ValidImport
  | InvalidImport
  deriving DecidableEq

/-- Outbound messages and queue operations performed while handling one
message (sends to other subsystems, participation enqueues, and the
one-shot confirmation to the import caller). -/
inductive Effect where
  | approvalFetch (chash : Nat)
  | queueParticipation (priority : Bool) (session : Nat) (chash : Nat)
  | sendDispute (validator : Nat)
  | revertBlocks (blocks : List (Nat × Nat))
  | confirmImport (result : ImportStatementsResult)
  | replyRecentDisputes (disputes : RecentDisputes)
  | replyActiveDisputes (disputes : RecentDisputes)
  | replyCandidateVotes (votes : List (Nat × Nat × CandidateVotesData))
  | replyUndisputedChain (best : Nat × Nat)
  deriving DecidableEq

/-- The outcome of one `handle_import_statements` call: its returned
`ImportStatementsResult`, the overlay and spam slots after the call, and
the ordered effects it performed. -/
structure ImportOutcome where
  result : ImportStatementsResult
  overlay : Overlay
  spam : SpamSlots
  effects : List Effect
  deriving DecidableEq

/-- `MaybeCandidateReceipt`. -/
inductive MaybeCandidateReceipt where
  | Provides (receipt : CandidateReceiptData)
  | AssumeBackingVotePresent (chash : Nat)
  deriving DecidableEq

/-- `MaybeCandidateReceipt::hash`. -/
def MaybeCandidateReceipt.hash : MaybeCandidateReceipt → Nat
  | .Provides r => r.chash
  | .AssumeBackingVotePresent h => h

/-- `Initialized::session_is_ancient` (initialized.rs:1302-1304):
`session_idx < highest_session_seen.saturating_sub(DISPUTE_WINDOW - 1)`
(`Nat` subtraction is saturating). -/
def session_is_ancient (highest_session_seen session_idx : Nat) : Bool :=
  decide (session_idx < highest_session_seen - (DISPUTE_WINDOW - 1))

/-- Modelled from the spec: `is_potential_spam(scraper, new_state,
candidate_hash)` is "true iff the candidate is not included, not backed,
not confirmed, has no own vote, and is disputed" (§4.6 step 5); the
function lives in the crate root, which is not among the sources. -/
def is_potential_spam (is_included is_backed : Bool) (st : NewState) : Bool :=
  st.is_disputed && !is_included && !is_backed && !st.is_confirmed && st.own_vote_missing

/-- The tail of `handle_import_statements` after the spam-slot check
(initialized.rs:960-1162): participation queuing, distribution of our own
approval votes on fresh disputes, the recent-disputes update, the
chain-selection revert, and the candidate-votes write.  `effs0` carries the
effects already performed (the approval-vote fetch, were it reachable);
`mk_dispute_ok v` models whether `make_dispute_message` succeeds for
validator `v` (the message builder is not among the sources). -/
def after_spam_checks (inp : ImportInputs) (env : EnvData) (mk_dispute_ok : Nat → Bool)
    (import_result : ImportResult) (chash session : Nat)
    (overlay : Overlay) (spam : SpamSlots) (effs0 : List Effect) : ImportOutcome :=
  let ns := import_result.new_state
  let potential_spam := is_potential_spam inp.is_included inp.is_backed ns
  let participation_effects :=
    if ns.own_vote_missing && ns.is_disputed && !potential_spam then
      [Effect.queueParticipation inp.is_included session ns.candidate_receipt.chash]
    else []
  let dispute_message_effects :=
    if import_result.is_freshly_disputed then
      ns.own_approval_votes.filterMap (fun v =>
        match env.validators.get? v with
        | none => none
        | some _ => if mk_dispute_ok v then some (Effect.sendDispute v) else none)
    else []
  let overlay1 := match ns.dispute_status with
    | some new_status =>
      if import_result.dispute_state_changed then
        Overlay.write_recent_disputes overlay
          (assocInsert (overlay.recent_disputes.getD []) (session, chash) new_status)
      else overlay
    | none => overlay
  let revert_effects :=
    if import_result.is_freshly_concluded_against && !inp.blocks_including.isEmpty then
      [Effect.revertBlocks inp.blocks_including]
    else []
  let overlay2 := match import_result.updated_votes with
    | some votes => Overlay.write_candidate_votes overlay1 session chash votes
    | none => overlay1
  ⟨.ValidImport, overlay2, spam,
    effs0 ++ participation_effects ++ dispute_message_effects ++ revert_effects⟩

/-- The `free_spam_slots_available` loop of `handle_import_statements`
(initialized.rs:937-947): attempt `add_unconfirmed` for every new invalid
voter in order, threading the spam slots, and or-together the results. -/
def spam_slots_fold (session chash : Nat) (voters : List Nat) (spam : SpamSlots) :
    SpamSlots × Bool :=
  voters.foldl
    (fun (p : SpamSlots × Bool) v =>
      let r := p.1.add_unconfirmed session chash v
      (r.2, p.2 || r.1))
    (spam, false)

/-- The middle of `handle_import_statements` (initialized.rs:841-958): the
(disabled) approval-vote folding guard and the spam-slot check.  The guard
condition reproduces the source literally: `(is_freshly_disputed() ||
is_freshly_concluded()) && false`. -/
def import_core (inp : ImportInputs) (env : EnvData) (mk_dispute_ok : Nat → Bool)
    (chash session : Nat) (overlay : Overlay) (spam : SpamSlots) : ImportOutcome :=
  let fetch_approvals :=
    (inp.import_result.is_freshly_disputed || inp.import_result.is_freshly_concluded) && false
  let effs0 := if fetch_approvals then [Effect.approvalFetch chash] else []
  let import_result := if fetch_approvals then inp.approval_result else inp.import_result
  let potential_spam := is_potential_spam inp.is_included inp.is_backed import_result.new_state
  if !potential_spam then
    after_spam_checks inp env mk_dispute_ok import_result chash session overlay
      (spam.clear session chash) effs0
  else if !import_result.new_invalid_voters.isEmpty then
    let folded := spam_slots_fold session chash import_result.new_invalid_voters spam
    if !folded.2 then ⟨.InvalidImport, overlay, folded.1, effs0⟩
    else after_spam_checks inp env mk_dispute_ok import_result chash session overlay
      folded.1 effs0
  else
    after_spam_checks inp env mk_dispute_ok import_result chash session overlay spam effs0

/-- `Initialized::handle_import_statements` (initialized.rs:752-1163): the
ancient-session gate, relay-parent resolution, the candidate-environment
gate, the old-state gate, and then `import_core`. -/
def handle_import_statements (highest_session_seen : Nat) (inp : ImportInputs)
    (mk_dispute_ok : Nat → Bool) (candidate_receipt : MaybeCandidateReceipt)
    (session : Nat) (overlay : Overlay) (spam : SpamSlots) : ImportOutcome :=
  if session_is_ancient highest_session_seen session then
    ⟨.InvalidImport, overlay, spam, []⟩
  else
    let chash := candidate_receipt.hash
    let votes_in_db := Overlay.load_candidate_votes overlay session chash
    let relay_parent := match candidate_receipt with
      | .Provides r => some r.relay_parent
      | .AssumeBackingVotePresent _ =>
        votes_in_db.map (fun (v : CandidateVotesData) => v.receipt.relay_parent)
    match relay_parent with
    | none => ⟨.InvalidImport, overlay, spam, []⟩
    | some _ =>
      match inp.env with
      | none => ⟨.InvalidImport, overlay, spam, []⟩
      | some env =>
        let old_state_available := votes_in_db.isSome ||
          (match candidate_receipt with | .Provides _ => true | .AssumeBackingVotePresent _ => false)
        if !old_state_available then ⟨.InvalidImport, overlay, spam, []⟩
        else import_core inp env mk_dispute_ok chash session overlay spam

/-! ## Lemmas about the import pipeline -/

theorem add_unconfirmed_unchanged_of_failed (sp : SpamSlots) (s c v : Nat)
    (h : (sp.add_unconfirmed s c v).1 = false) : (sp.add_unconfirmed s c v).2 = sp := by
  unfold SpamSlots.add_unconfirmed at h ⊢
  split_ifs at h ⊢
  all_goals simp_all

theorem spam_slots_fold_all_fail (session chash : Nat) (sp : SpamSlots) (b : Bool) :
    ∀ voters : List Nat,
      (∀ v ∈ voters, (sp.add_unconfirmed session chash v).1 = false) →
      voters.foldl
        (fun (p : SpamSlots × Bool) v =>
          let r := p.1.add_unconfirmed session chash v
          (r.2, p.2 || r.1))
        (sp, b) = (sp, b)
  | [], _ => rfl
  | v :: rest, h => by
    have hv : (sp.add_unconfirmed session chash v).1 = false := h v (by simp)
    have hstep : ((sp.add_unconfirmed session chash v).2, b || (sp.add_unconfirmed session chash v).1)
        = (sp, b) := by
      rw [add_unconfirmed_unchanged_of_failed sp session chash v hv, hv, Bool.or_false]
    simp only [List.foldl_cons]
    rw [hstep]
    exact spam_slots_fold_all_fail session chash sp b rest (fun x hx => h x (by simp [hx]))

theorem handle_import_provides_eq_core (highest : Nat) (inp : ImportInputs)
    (mk : Nat → Bool) (r : CandidateReceiptData) (session : Nat) (ov : Overlay)
    (sp : SpamSlots) (e : EnvData)
    (hanc : session_is_ancient highest session = false)
    (henv : inp.env = some e) :
    handle_import_statements highest inp mk (.Provides r) session ov sp
      = import_core inp e mk r.chash session ov sp := by
  simp [handle_import_statements, hanc, henv, MaybeCandidateReceipt.hash]

theorem import_core_not_spam (inp : ImportInputs) (e : EnvData) (mk : Nat → Bool)
    (chash session : Nat) (ov : Overlay) (sp : SpamSlots)
    (hps : is_potential_spam inp.is_included inp.is_backed inp.import_result.new_state = false) :
    import_core inp e mk chash session ov sp
      = after_spam_checks inp e mk inp.import_result chash session ov
          (sp.clear session chash) [] := by
  simp [import_core, hps]

theorem import_core_spam_no_voters (inp : ImportInputs) (e : EnvData) (mk : Nat → Bool)
    (chash session : Nat) (ov : Overlay) (sp : SpamSlots)
    (hps : is_potential_spam inp.is_included inp.is_backed inp.import_result.new_state = true)
    (hvs : inp.import_result.new_invalid_voters = []) :
    import_core inp e mk chash session ov sp
      = after_spam_checks inp e mk inp.import_result chash session ov sp [] := by
  simp [import_core, hps, hvs]

theorem import_core_spam_reject (inp : ImportInputs) (e : EnvData) (mk : Nat → Bool)
    (chash session : Nat) (ov : Overlay) (sp : SpamSlots)
    (hps : is_potential_spam inp.is_included inp.is_backed inp.import_result.new_state = true)
    (hne : inp.import_result.new_invalid_voters ≠ [])
    (hfail : ∀ v ∈ inp.import_result.new_invalid_voters,
      (sp.add_unconfirmed session chash v).1 = false) :
    import_core inp e mk chash session ov sp
      = ⟨.InvalidImport, ov, sp, []⟩ := by
  have hfold : spam_slots_fold session chash inp.import_result.new_invalid_voters sp
      = (sp, false) :=
    spam_slots_fold_all_fail session chash sp false inp.import_result.new_invalid_voters hfail
  simp [import_core, hps, hne, hfold]

theorem import_core_spam_free (inp : ImportInputs) (e : EnvData) (mk : Nat → Bool)
    (chash session : Nat) (ov : Overlay) (sp : SpamSlots)
    (hps : is_potential_spam inp.is_included inp.is_backed inp.import_result.new_state = true)
    (hne : inp.import_result.new_invalid_voters ≠ [])
    (hfree : (spam_slots_fold session chash inp.import_result.new_invalid_voters sp).2 = true) :
    import_core inp e mk chash session ov sp
      = after_spam_checks inp e mk inp.import_result chash session ov
          (spam_slots_fold session chash inp.import_result.new_invalid_voters sp).1 [] := by
  simp [import_core, hps, hne, hfree]

/-- The effects of `after_spam_checks` do not depend on the spam-slots
argument, and with no prior effects they are exactly the three groups in
program order. -/
theorem after_spam_checks_effects (inp : ImportInputs) (e : EnvData) (mk : Nat → Bool)
    (ir : ImportResult) (chash session : Nat) (ov : Overlay) (sp : SpamSlots) :
    (after_spam_checks inp e mk ir chash session ov sp []).effects
      = (if ir.new_state.own_vote_missing && ir.new_state.is_disputed
            && !(is_potential_spam inp.is_included inp.is_backed ir.new_state) then
          [Effect.queueParticipation inp.is_included session ir.new_state.candidate_receipt.chash]
        else [])
        ++ (if ir.is_freshly_disputed then
            ir.new_state.own_approval_votes.filterMap (fun v =>
              match e.validators.get? v with
              | none => none
              | some _ => if mk v then some (Effect.sendDispute v) else none)
          else [])
        ++ (if ir.is_freshly_concluded_against && !inp.blocks_including.isEmpty then
            [Effect.revertBlocks inp.blocks_including]
          else []) := rfl

theorem import_core_valid_effects (inp : ImportInputs) (e : EnvData) (mk : Nat → Bool)
    (chash session : Nat) (ov : Overlay) (sp : SpamSlots)
    (hres : (import_core inp e mk chash session ov sp).result = .ValidImport) :
    (import_core inp e mk chash session ov sp).effects
      = (after_spam_checks inp e mk inp.import_result chash session ov sp []).effects := by
  by_cases hps : is_potential_spam inp.is_included inp.is_backed inp.import_result.new_state = true
  · by_cases hvs : inp.import_result.new_invalid_voters = []
    · rw [import_core_spam_no_voters inp e mk chash session ov sp hps hvs]
    · by_cases hfree :
        (spam_slots_fold session chash inp.import_result.new_invalid_voters sp).2 = true
      · rw [import_core_spam_free inp e mk chash session ov sp hps hvs hfree]
        rfl
      · exfalso
        have hf : (spam_slots_fold session chash inp.import_result.new_invalid_voters sp).2
            = false := by
          cases hx : (spam_slots_fold session chash inp.import_result.new_invalid_voters sp).2
          · rfl
          · exact absurd hx hfree
        rw [show import_core inp e mk chash session ov sp
            = ⟨.InvalidImport, ov,
                (spam_slots_fold session chash inp.import_result.new_invalid_voters sp).1, []⟩
          from by simp [import_core, hps, hvs, hf]] at hres
        simp at hres
  · have hps' : is_potential_spam inp.is_included inp.is_backed inp.import_result.new_state
        = false := by
      cases hx : is_potential_spam inp.is_included inp.is_backed inp.import_result.new_state
      · rfl
      · exact absurd hx hps
    rw [import_core_not_spam inp e mk chash session ov sp hps']
    rfl

/-- Every effect of `handle_import_statements` is a participation enqueue,
a dispute-distribution send, or a chain-selection revert (in particular the
guarded approval-vote fetch and the caller confirmation never appear). -/
theorem import_effect_shape (highest : Nat) (inp : ImportInputs) (mk : Nat → Bool)
    (rc : MaybeCandidateReceipt) (session : Nat) (ov : Overlay) (sp : SpamSlots) :
    ∀ ef ∈ (handle_import_statements highest inp mk rc session ov sp).effects,
      (∃ p s c, ef = Effect.queueParticipation p s c) ∨
      (∃ v, ef = Effect.sendDispute v) ∨
      (∃ bs, ef = Effect.revertBlocks bs) := by
  intro ef hef
  have hshape : ∀ (e : EnvData) (ir : ImportResult) (chash : Nat) (sp1 : SpamSlots),
      ef ∈ (after_spam_checks inp e mk ir chash session ov sp1 []).effects →
      (∃ p s c, ef = Effect.queueParticipation p s c) ∨
      (∃ v, ef = Effect.sendDispute v) ∨
      (∃ bs, ef = Effect.revertBlocks bs) := by
    intro e ir chash sp1 hmem
    rw [after_spam_checks_effects] at hmem
    rcases List.mem_append.mp hmem with hmem' | hrev
    · rcases List.mem_append.mp hmem' with hq | hd
      · left
        rcases List.mem_ite_nil_right.mp hq with ⟨_, hq'⟩
        rcases List.mem_singleton.mp hq' with rfl
        exact ⟨_, _, _, rfl⟩
      · right; left
        rcases List.mem_ite_nil_right.mp hd with ⟨_, hd'⟩
        rcases List.mem_filterMap.mp hd' with ⟨v, _, hv⟩
        cases hget : ir.new_state.candidate_receipt.chash with
        | _ =>
          revert hv
          cases EnvData.validators e |>.get? v with
          | none => intro hv; cases hv
          | some _ =>
            intro hv
            by_cases hmk : mk v = true
            · rw [if_pos hmk] at hv
              cases hv
              exact ⟨v, rfl⟩
            · rw [if_neg hmk] at hv
              cases hv
    · right; right
      rcases List.mem_ite_nil_right.mp hrev with ⟨_, hrev'⟩
      rcases List.mem_singleton.mp hrev' with rfl
      exact ⟨_, rfl⟩
  by_cases hanc : session_is_ancient highest session = true
  · rw [show handle_import_statements highest inp mk rc session ov sp
        = ⟨.InvalidImport, ov, sp, []⟩ from by simp [handle_import_statements, hanc]] at hef
    cases hef
  · have hanc' : session_is_ancient highest session = false := by
      cases hx : session_is_ancient highest session
      · rfl
      · exact absurd hx hanc
    cases rc with
    | Provides r =>
      cases henv : inp.env with
      | none =>
        rw [show handle_import_statements highest inp mk (.Provides r) session ov sp
            = ⟨.InvalidImport, ov, sp, []⟩ from by
          simp [handle_import_statements, hanc', henv]] at hef
        cases hef
      | some e =>
        rw [handle_import_provides_eq_core highest inp mk r session ov sp e hanc' henv] at hef
        by_cases hps : is_potential_spam inp.is_included inp.is_backed
            inp.import_result.new_state = true
        · by_cases hvs : inp.import_result.new_invalid_voters = []
          · rw [import_core_spam_no_voters inp e mk r.chash session ov sp hps hvs] at hef
            exact hshape e inp.import_result r.chash sp hef
          · by_cases hfree : (spam_slots_fold session r.chash
                inp.import_result.new_invalid_voters sp).2 = true
            · rw [import_core_spam_free inp e mk r.chash session ov sp hps hvs hfree] at hef
              exact hshape e inp.import_result r.chash _ hef
            · have hf : (spam_slots_fold session r.chash
                  inp.import_result.new_invalid_voters sp).2 = false := by
                cases hx : (spam_slots_fold session r.chash
                    inp.import_result.new_invalid_voters sp).2
                · rfl
                · exact absurd hx hfree
              rw [show import_core inp e mk r.chash session ov sp
                  = ⟨.InvalidImport, ov,
                      (spam_slots_fold session r.chash
                        inp.import_result.new_invalid_voters sp).1, []⟩ from by
                simp [import_core, hps, hvs, hf]] at hef
              cases hef
        · have hps' : is_potential_spam inp.is_included inp.is_backed
              inp.import_result.new_state = false := by
            cases hx : is_potential_spam inp.is_included inp.is_backed
                inp.import_result.new_state
            · rfl
            · exact absurd hx hps
          rw [import_core_not_spam inp e mk r.chash session ov sp hps'] at hef
          exact hshape e inp.import_result r.chash _ hef
    | AssumeBackingVotePresent h =>
      cases hdb : Overlay.load_candidate_votes ov session h with
      | none =>
        rw [show handle_import_statements highest inp mk (.AssumeBackingVotePresent h)
              session ov sp = ⟨.InvalidImport, ov, sp, []⟩ from by
          simp [handle_import_statements, hanc', MaybeCandidateReceipt.hash, hdb]] at hef
        cases hef
      | some votes =>
        cases henv : inp.env with
        | none =>
          rw [show handle_import_statements highest inp mk (.AssumeBackingVotePresent h)
                session ov sp = ⟨.InvalidImport, ov, sp, []⟩ from by
            simp [handle_import_statements, hanc', MaybeCandidateReceipt.hash, hdb, henv]] at hef
          cases hef
        | some e =>
          rw [show handle_import_statements highest inp mk (.AssumeBackingVotePresent h)
                session ov sp = import_core inp e mk h session ov sp from by
            simp [handle_import_statements, hanc', MaybeCandidateReceipt.hash, hdb, henv]] at hef
          by_cases hps : is_potential_spam inp.is_included inp.is_backed
              inp.import_result.new_state = true
          · by_cases hvs : inp.import_result.new_invalid_voters = []
            · rw [import_core_spam_no_voters inp e mk h session ov sp hps hvs] at hef
              exact hshape e inp.import_result h sp hef
            · by_cases hfree : (spam_slots_fold session h
                  inp.import_result.new_invalid_voters sp).2 = true
              · rw [import_core_spam_free inp e mk h session ov sp hps hvs hfree] at hef
                exact hshape e inp.import_result h _ hef
              · have hf : (spam_slots_fold session h
                    inp.import_result.new_invalid_voters sp).2 = false := by
                  cases hx : (spam_slots_fold session h
                      inp.import_result.new_invalid_voters sp).2
                  · rfl
                  · exact absurd hx hfree
                rw [show import_core inp e mk h session ov sp
                    = ⟨.InvalidImport, ov,
                        (spam_slots_fold session h
                          inp.import_result.new_invalid_voters sp).1, []⟩ from by
                  simp [import_core, hps, hvs, hf]] at hef
                cases hef
          · have hps' : is_potential_spam inp.is_included inp.is_backed
                inp.import_result.new_state = false := by
              cases hx : is_potential_spam inp.is_included inp.is_backed
                  inp.import_result.new_state
              · rfl
              · exact absurd hx hps
            rw [import_core_not_spam inp e mk h session ov sp hps'] at hef
            exact hshape e inp.import_result h _ hef

/-! ## Claims C5, C2, C6 -/

/-- Claim C5: for every call to `handle_import_statements` with a session
index strictly below `highest_session_seen − (W−1)` (with saturating
subtraction), the result is `InvalidImport` and no state is modified for
that import: the overlay and the spam slots are returned unchanged and no
effect is performed (the embedded handler returns before touching either;
reads are not observable in the embedding, and the code likewise returns
before its first load). -/
theorem c5_ancient_session_rejected (highest_session_seen : Nat) (inp : ImportInputs)
    (mk : Nat → Bool) (rc : MaybeCandidateReceipt) (session : Nat)
    (ov : Overlay) (sp : SpamSlots)
    (h : session < highest_session_seen - (DISPUTE_WINDOW - 1)) :
    handle_import_statements highest_session_seen inp mk rc session ov sp
      = ⟨.InvalidImport, ov, sp, []⟩ := by
  have hanc : session_is_ancient highest_session_seen session = true := by
    simp [session_is_ancient, h]
  simp [handle_import_statements, hanc]

/-- Claim C2: for every import where the candidate is potential spam and
the set of new invalid voters is non-empty, if `add_unconfirmed` fails for
every new invalid voter then `handle_import_statements` returns
`InvalidImport` and leaves the overlay untouched (so neither candidate
votes nor a recent-disputes entry is written in that call); conversely, if
the candidate is not potential spam, the resulting spam slots are exactly
`spam_slots.clear(session, candidate_hash)` of the incoming ones.  The
hypotheses place the call past the ancient-session and environment gates,
which every import reaching the spam check satisfies. -/
theorem c2_spam_slots_rejection_and_clear (highest_session_seen : Nat) (inp : ImportInputs)
    (mk : Nat → Bool) (r : CandidateReceiptData) (session : Nat)
    (ov : Overlay) (sp : SpamSlots) (e : EnvData)
    (hanc : session_is_ancient highest_session_seen session = false)
    (henv : inp.env = some e) :
    (is_potential_spam inp.is_included inp.is_backed inp.import_result.new_state = true →
      inp.import_result.new_invalid_voters ≠ [] →
      (∀ v ∈ inp.import_result.new_invalid_voters,
        (sp.add_unconfirmed session r.chash v).1 = false) →
      (handle_import_statements highest_session_seen inp mk (.Provides r) session ov sp).result
          = .InvalidImport
        ∧ (handle_import_statements highest_session_seen inp mk (.Provides r) session ov sp).overlay
          = ov)
    ∧ (is_potential_spam inp.is_included inp.is_backed inp.import_result.new_state = false →
        (handle_import_statements highest_session_seen inp mk (.Provides r) session ov sp).spam
          = sp.clear session r.chash) := by
  have heq := handle_import_provides_eq_core highest_session_seen inp mk r session ov sp e
    hanc henv
  constructor
  · intro hps hne hfail
    rw [heq, import_core_spam_reject inp e mk r.chash session ov sp hps hne hfail]
    exact ⟨rfl, rfl⟩
  · intro hps
    rw [heq, import_core_not_spam inp e mk r.chash session ov sp hps]
    rfl

/-- Claim C6: during statement import the approval-vote fetch is never
executed: for every input, no `GetApprovalSignaturesForCandidate` request
appears among the effects of `handle_import_statements`, because the guard
of that branch is `(freshly disputed or freshly concluded) && false`. -/
theorem c6_approval_fetch_never_executed (highest_session_seen : Nat) (inp : ImportInputs)
    (mk : Nat → Bool) (rc : MaybeCandidateReceipt) (session : Nat)
    (ov : Overlay) (sp : SpamSlots) :
    ∀ c, Effect.approvalFetch c
      ∉ (handle_import_statements highest_session_seen inp mk rc session ov sp).effects := by
  intro c hmem
  rcases import_effect_shape highest_session_seen inp mk rc session ov sp _ hmem with
    ⟨p, s, ch, hq⟩ | ⟨v, hv⟩ | ⟨bs, hb⟩
  · cases hq
  · cases hv
  · cases hb

/-! ## Concrete fixtures used by the witnesses -/

/-- A concrete candidate receipt. -/
def exReceipt : CandidateReceiptData := ⟨7, 3⟩

/-- A concrete candidate environment. -/
def exEnv : EnvData := ⟨[10, 11, 12], [0]⟩

/-- A concrete `make_dispute_message` oracle that always succeeds. -/
def exMk : Nat → Bool := fun _ => true

/-- An empty overlay. -/
def exOverlay : Overlay := ⟨none, none, [], false⟩

/-- Spam slots with a zero limit: every `add_unconfirmed` fails. -/
def exSpamFull : SpamSlots := ⟨0, [], []⟩

/-- A post-import state for a disputed, unconfirmed candidate we have not
voted on. -/
def exStateDisputed : NewState := ⟨exReceipt, true, true, false, some .Active, []⟩

/-- An engine result with one new invalid voter for `exStateDisputed`. -/
def exIRSpam : ImportResult := ⟨exStateDisputed, [0], true, false, false, true, none⟩

/-- Inputs whose candidate is neither included nor backed: potential
spam. -/
def exInputsSpam : ImportInputs := ⟨exIRSpam, exIRSpam, some exEnv, false, false, [], []⟩

/-- An engine result that freshly concludes against the candidate. -/
def exIRConcluded : ImportResult :=
  ⟨⟨exReceipt, true, true, false, some (.ConcludedAgainst 0), []⟩, [], false, false, true, true,
    some ⟨exReceipt, 0⟩⟩

/-- Inputs for an included candidate (not potential spam) whose dispute
freshly concludes against it, with two including blocks. -/
def exInputsValid : ImportInputs :=
  ⟨exIRConcluded, exIRConcluded, some exEnv, true, false, [(100, 1), (101, 2)], []⟩

/-- Witness for C5 at session 3 with highest seen session 12. -/
theorem c5_witness :
    3 < 12 - (DISPUTE_WINDOW - 1)
    ∧ handle_import_statements 12 exInputsSpam exMk (.Provides exReceipt) 3 exOverlay exSpamFull
      = ⟨.InvalidImport, exOverlay, exSpamFull, []⟩ :=
  ⟨by decide,
    c5_ancient_session_rejected 12 exInputsSpam exMk (.Provides exReceipt) 3 exOverlay exSpamFull
      (by decide)⟩

/-- Witness for C2: with full spam slots the import of a potential-spam
candidate is rejected and the overlay is untouched. -/
theorem c2_witness :
    (handle_import_statements 12 exInputsSpam exMk (.Provides exReceipt) 8 exOverlay
        exSpamFull).result = .InvalidImport
    ∧ (handle_import_statements 12 exInputsSpam exMk (.Provides exReceipt) 8 exOverlay
        exSpamFull).overlay = exOverlay :=
  (c2_spam_slots_rejection_and_clear 12 exInputsSpam exMk exReceipt 8 exOverlay exSpamFull exEnv
      (by decide) rfl).1 (by decide) (by decide) (by decide)

/-- Witness for C6 at concrete inputs. -/
theorem c6_witness :
    Effect.approvalFetch 7
      ∉ (handle_import_statements 12 exInputsValid exMk (.Provides exReceipt) 8 exOverlay
          exSpamFull).effects :=
  c6_approval_fetch_never_executed 12 exInputsValid exMk (.Provides exReceipt) 8 exOverlay
    exSpamFull 7

/-! ## Claims C4 and C9 -/

theorem list_isEmpty_false_iff {α : Type} (l : List α) : l.isEmpty = false ↔ l ≠ [] := by
  cases l <;> simp

/-- Claim C4: for every statement import that is not rejected, a
participation request is queued if and only if `own_vote_missing`,
`is_disputed`, and not `potential_spam` all hold, and the queued request
has priority if and only if the scraper reports the candidate as included
(the queued priority flag equals `is_included`).  The gate hypotheses
place the call past the ancient-session and environment checks, which
every non-rejected import satisfies. -/
theorem c4_participation_queue_iff (highest_session_seen : Nat) (inp : ImportInputs)
    (mk : Nat → Bool) (r : CandidateReceiptData) (session : Nat)
    (ov : Overlay) (sp : SpamSlots) (e : EnvData)
    (hanc : session_is_ancient highest_session_seen session = false)
    (henv : inp.env = some e)
    (hres : (handle_import_statements highest_session_seen inp mk (.Provides r) session ov
        sp).result = .ValidImport) :
    ((∃ p s c, Effect.queueParticipation p s c
        ∈ (handle_import_statements highest_session_seen inp mk (.Provides r) session ov
            sp).effects)
      ↔ (inp.import_result.new_state.own_vote_missing = true
          ∧ inp.import_result.new_state.is_disputed = true
          ∧ is_potential_spam inp.is_included inp.is_backed inp.import_result.new_state = false))
    ∧ (∀ p s c, Effect.queueParticipation p s c
        ∈ (handle_import_statements highest_session_seen inp mk (.Provides r) session ov
            sp).effects →
        p = inp.is_included) := by
  have heq := handle_import_provides_eq_core highest_session_seen inp mk r session ov sp e
    hanc henv
  rw [heq] at hres ⊢
  rw [import_core_valid_effects inp e mk r.chash session ov sp hres,
    after_spam_checks_effects]
  have hnotB : ∀ p s c, Effect.queueParticipation p s c
      ∈ (if inp.import_result.is_freshly_disputed = true then
          inp.import_result.new_state.own_approval_votes.filterMap (fun v =>
            match e.validators.get? v with
            | none => none
            | some _ => if mk v then some (Effect.sendDispute v) else none)
        else []) → False := by
    intro p s c hmem
    rcases List.mem_ite_nil_right.mp hmem with ⟨_, hmem'⟩
    rcases List.mem_filterMap.mp hmem' with ⟨v, _, hv⟩
    revert hv
    cases e.validators.get? v with
    | none => intro hv; cases hv
    | some _ =>
      intro hv
      by_cases hmk : mk v = true
      · rw [if_pos hmk] at hv
        cases hv
      · rw [if_neg hmk] at hv
        cases hv
  have hnotC : ∀ p s c, Effect.queueParticipation p s c
      ∈ (if (inp.import_result.is_freshly_concluded_against
            && !inp.blocks_including.isEmpty) = true then
          [Effect.revertBlocks inp.blocks_including]
        else []) → False := by
    intro p s c hmem
    rcases List.mem_ite_nil_right.mp hmem with ⟨_, hmem'⟩
    cases List.mem_singleton.mp hmem'
  constructor
  · constructor
    · rintro ⟨p, s, c, hmem⟩
      rcases List.mem_append.mp hmem with hmem' | hrev
      · rcases List.mem_append.mp hmem' with hq | hd
        · rcases List.mem_ite_nil_right.mp hq with ⟨hcond, _⟩
          rcases Bool.and_eq_true_iff.mp hcond with ⟨hcond', hps⟩
          rcases Bool.and_eq_true_iff.mp hcond' with ⟨hown, hdis⟩
          exact ⟨hown, hdis, by simpa using hps⟩
        · exact absurd hd (fun h => hnotB p s c h)
      · exact absurd hrev (fun h => hnotC p s c h)
    · rintro ⟨hown, hdis, hps⟩
      refine ⟨inp.is_included, session, inp.import_result.new_state.candidate_receipt.chash, ?_⟩
      apply List.mem_append.mpr
      left
      apply List.mem_append.mpr
      left
      rw [if_pos (by rw [hown, hdis, hps]; rfl)]
      exact List.mem_singleton.mpr rfl
  · intro p s c hmem
    rcases List.mem_append.mp hmem with hmem' | hrev
    · rcases List.mem_append.mp hmem' with hq | hd
      · rcases List.mem_ite_nil_right.mp hq with ⟨_, hq'⟩
        have := List.mem_singleton.mp hq'
        injection this with h1 h2 h3
      · exact absurd hd (fun h => hnotB p s c h)
    · exact absurd hrev (fun h => hnotC p s c h)

/-- Claim C9: during statement import (here: one that is not rejected, the
only case in which the revert branch is reached), a
`ChainSelection::RevertBlocks` message is sent if and only if the dispute
is freshly concluded against the candidate and the scraper's list of
blocks including the candidate is non-empty, and the message carries
exactly that list; when the list is empty no revert message is sent. -/
theorem c9_revert_blocks_iff (highest_session_seen : Nat) (inp : ImportInputs)
    (mk : Nat → Bool) (r : CandidateReceiptData) (session : Nat)
    (ov : Overlay) (sp : SpamSlots) (e : EnvData)
    (hanc : session_is_ancient highest_session_seen session = false)
    (henv : inp.env = some e)
    (hres : (handle_import_statements highest_session_seen inp mk (.Provides r) session ov
        sp).result = .ValidImport) :
    ∀ bs, Effect.revertBlocks bs
        ∈ (handle_import_statements highest_session_seen inp mk (.Provides r) session ov
            sp).effects
      ↔ (inp.import_result.is_freshly_concluded_against = true
          ∧ inp.blocks_including ≠ []
          ∧ bs = inp.blocks_including) := by
  have heq := handle_import_provides_eq_core highest_session_seen inp mk r session ov sp e
    hanc henv
  rw [heq] at hres ⊢
  rw [import_core_valid_effects inp e mk r.chash session ov sp hres,
    after_spam_checks_effects]
  intro bs
  constructor
  · intro hmem
    rcases List.mem_append.mp hmem with hmem' | hrev
    · exfalso
      rcases List.mem_append.mp hmem' with hq | hd
      · rcases List.mem_ite_nil_right.mp hq with ⟨_, hq'⟩
        cases List.mem_singleton.mp hq'
      · rcases List.mem_ite_nil_right.mp hd with ⟨_, hd'⟩
        rcases List.mem_filterMap.mp hd' with ⟨v, _, hv⟩
        revert hv
        cases e.validators.get? v with
        | none => intro hv; cases hv
        | some _ =>
          intro hv
          by_cases hmk : mk v = true
          · rw [if_pos hmk] at hv
            cases hv
          · rw [if_neg hmk] at hv
            cases hv
    · rcases List.mem_ite_nil_right.mp hrev with ⟨hcond, hrev'⟩
      rcases Bool.and_eq_true_iff.mp hcond with ⟨hfla, hblocks⟩
      have := List.mem_singleton.mp hrev'
      injection this with h1
      exact ⟨hfla, (list_isEmpty_false_iff inp.blocks_including).mp
        (by simpa using hblocks), h1⟩
  · rintro ⟨hfla, hblocks, rfl⟩
    apply List.mem_append.mpr
    right
    rw [if_pos (by
      rw [hfla, (list_isEmpty_false_iff inp.blocks_including).mpr hblocks]
      rfl)]
    exact List.mem_singleton.mpr rfl

/-- Witness for C4: with the included-candidate fixture, participation is
queued with priority. -/
theorem c4_witness :
    ∃ p s c, Effect.queueParticipation p s c
      ∈ (handle_import_statements 12 exInputsValid exMk (.Provides exReceipt) 8 exOverlay
          exSpamFull).effects :=
  ((c4_participation_queue_iff 12 exInputsValid exMk exReceipt 8 exOverlay exSpamFull exEnv
      (by decide) rfl (by decide)).1).mpr ⟨by decide, by decide, by decide⟩

/-- Witness for C9: with the freshly-concluded-against fixture, the revert
message carrying the two including blocks is sent. -/
theorem c9_witness :
    Effect.revertBlocks [(100, 1), (101, 2)]
      ∈ (handle_import_statements 12 exInputsValid exMk (.Provides exReceipt) 8 exOverlay
          exSpamFull).effects :=
  (c9_revert_blocks_iff 12 exInputsValid exMk exReceipt 8 exOverlay exSpamFull exEnv
      (by decide) rfl (by decide) [(100, 1), (101, 2)]).mpr ⟨by decide, by decide, rfl⟩

/-! ## Session-window handling on active leaves (claim C3)

The session-caching portion of `process_active_leaves_update`
(initialized.rs:299-349).  The two runtime-info calls are collaborator
calls: `session_idx` is the result of `get_session_index_for_child`
(`none` for `Err`), and `fetch_ok i` tells whether
`get_session_info_by_index` succeeds for session `i`. -/

/-- The state after the session-caching step: the updated
`highest_session_seen`, `gaps_in_cache`, spam slots and overlay. -/
structure SessionWindowResult where
  highest_session_seen : Nat
  gaps_in_cache : Bool
  spam_slots : SpamSlots
  overlay : Overlay
  deriving DecidableEq

/-- The session-caching step of `process_active_leaves_update`
(initialized.rs:299-349): when the fetched session index exceeds
`highest_session_seen` or the cache has gaps, warm sessions
`lower_bound ..= session_idx` (setting `gaps_in_cache` on any fetch
error), then unconditionally update `highest_session_seen`, persist the
earliest session and prune the spam slots. -/
def session_window_update (fetch_ok : Nat → Bool) (session_idx : Option Nat)
    (highest_session_seen : Nat) (gaps_in_cache : Bool)
    (spam : SpamSlots) (overlay : Overlay) : SessionWindowResult :=
  match session_idx with
  | none => ⟨highest_session_seen, gaps_in_cache, spam, overlay⟩
  | some session_idx =>
    if gaps_in_cache || decide (highest_session_seen < session_idx) then
      let lower_bound := if gaps_in_cache then session_idx - (DISPUTE_WINDOW - 1)
        else highest_session_seen + 1
      let gaps' := (List.range' lower_bound (session_idx + 1 - lower_bound)).foldl
        (fun g idx => if fetch_ok idx then g else true) gaps_in_cache
      ⟨session_idx, gaps',
        spam.prune_old (session_idx - (DISPUTE_WINDOW - 1)),
        note_earliest_session overlay (session_idx - (DISPUTE_WINDOW - 1))⟩
    else ⟨highest_session_seen, gaps_in_cache, spam, overlay⟩

theorem foldl_fetch_ok_true (fetch_ok : Nat → Bool) :
    ∀ rest : List Nat,
      rest.foldl (fun g idx => if fetch_ok idx then g else true) true = true
  | [] => rfl
  | i :: rest => by
    by_cases hi : fetch_ok i = true
    · simp only [List.foldl_cons, if_pos hi]
      exact foldl_fetch_ok_true fetch_ok rest
    · simp only [List.foldl_cons, if_neg hi]
      exact foldl_fetch_ok_true fetch_ok rest

theorem foldl_fetch_ok_any (fetch_ok : Nat → Bool) :
    ∀ (l : List Nat) (g : Bool),
      l.foldl (fun g idx => if fetch_ok idx then g else true) g
        = (g || l.any (fun i => !fetch_ok i))
  | [], g => by simp
  | i :: rest, g => by
    by_cases hi : fetch_ok i = true
    · simp only [List.foldl_cons, if_pos hi, List.any_cons, hi, Bool.not_true,
        Bool.false_or]
      exact foldl_fetch_ok_any fetch_ok rest g
    · have hi' : fetch_ok i = false := by
        cases hx : fetch_ok i
        · rfl
        · exact absurd hx hi
      simp only [List.foldl_cons, if_neg hi, List.any_cons, hi', Bool.not_false,
        Bool.true_or, Bool.or_true]
      exact foldl_fetch_ok_true fetch_ok rest

/-- Spam slots holding one counted entry in the old session 8. -/
def exSpamOld : SpamSlots := ⟨2, [((8, 0), 1)], [(8, 5, 0)]⟩

/-- A fetch oracle that fails exactly for session 13. -/
def exFetchFails13 : Nat → Bool := fun i => decide (i ≠ 13)

/-- Counterexample to claim C3 as stated: with `highest_session_seen = 12`,
no prior gaps, and a new leaf in session 14, the fetch of session 13 fails
(so not all session-info fetches in `[13 ..= 14]` succeeded, recorded by
`gaps_in_cache = true`), and yet `highest_session_seen` is updated to 14,
`earliest_session = 14 − (W−1) = 9` is persisted, and
`spam_slots.prune_old(9)` is invoked (the session-8 entries are gone).  The
code performs these updates unconditionally after the warming loop, not
"only on success". -/
theorem c3_counterexample :
    exFetchFails13 13 = false
    ∧ (session_window_update exFetchFails13 (some 14) 12 false exSpamOld exOverlay).gaps_in_cache
      = true
    ∧ (session_window_update exFetchFails13 (some 14) 12 false exSpamOld
        exOverlay).highest_session_seen = 14
    ∧ (session_window_update exFetchFails13 (some 14) 12 false exSpamOld
        exOverlay).overlay.earliest_session = some 9
    ∧ (session_window_update exFetchFails13 (some 14) 12 false exSpamOld exOverlay).spam_slots
      = ⟨2, [], []⟩ := by
  decide

/-- Claim C3, amended: in active-leaves handling, when a new leaf's session
index triggers cache warming (there are known gaps or the index exceeds
`highest_session_seen`), `highest_session_seen` is updated to the leaf's
session index, `earliest_session = session_idx − (W−1)` is persisted, and
`spam_slots.prune_old(session_idx − (W−1))` is invoked — all
unconditionally, whether or not the session-info fetches in
`[lower_bound ..= session_idx]` succeeded — while any fetch error sets
`gaps_in_cache = true` so the window is retried on the next leaf (the
warming branch is then taken for every subsequent session index). -/
theorem c3_amended_session_window (fetch_ok : Nat → Bool) (session_idx : Nat)
    (highest_session_seen : Nat) (gaps_in_cache : Bool) (spam : SpamSlots) (overlay : Overlay)
    (htrig : (gaps_in_cache || decide (highest_session_seen < session_idx)) = true) :
    (session_window_update fetch_ok (some session_idx) highest_session_seen gaps_in_cache
        spam overlay).highest_session_seen = session_idx
    ∧ (session_window_update fetch_ok (some session_idx) highest_session_seen gaps_in_cache
        spam overlay).overlay
      = note_earliest_session overlay (session_idx - (DISPUTE_WINDOW - 1))
    ∧ (session_window_update fetch_ok (some session_idx) highest_session_seen gaps_in_cache
        spam overlay).spam_slots
      = spam.prune_old (session_idx - (DISPUTE_WINDOW - 1))
    ∧ (session_window_update fetch_ok (some session_idx) highest_session_seen gaps_in_cache
        spam overlay).gaps_in_cache
      = (gaps_in_cache
          || (List.range'
                (if gaps_in_cache then session_idx - (DISPUTE_WINDOW - 1)
                  else highest_session_seen + 1)
                (session_idx + 1 -
                  (if gaps_in_cache then session_idx - (DISPUTE_WINDOW - 1)
                    else highest_session_seen + 1))).any (fun i => !fetch_ok i))
    ∧ ((session_window_update fetch_ok (some session_idx) highest_session_seen gaps_in_cache
          spam overlay).gaps_in_cache = true →
        ∀ next_session_idx : Nat,
          ((session_window_update fetch_ok (some session_idx) highest_session_seen gaps_in_cache
              spam overlay).gaps_in_cache
            || decide ((session_window_update fetch_ok (some session_idx) highest_session_seen
                gaps_in_cache spam overlay).highest_session_seen < next_session_idx)) = true) := by
  have hstep : session_window_update fetch_ok (some session_idx) highest_session_seen
      gaps_in_cache spam overlay
      = ⟨session_idx,
          (List.range'
            (if gaps_in_cache then session_idx - (DISPUTE_WINDOW - 1)
              else highest_session_seen + 1)
            (session_idx + 1 -
              (if gaps_in_cache then session_idx - (DISPUTE_WINDOW - 1)
                else highest_session_seen + 1))).foldl
            (fun g idx => if fetch_ok idx then g else true) gaps_in_cache,
          spam.prune_old (session_idx - (DISPUTE_WINDOW - 1)),
          note_earliest_session overlay (session_idx - (DISPUTE_WINDOW - 1))⟩ := by
    simp only [session_window_update]
    rw [if_pos htrig]
  rw [hstep]
  refine ⟨rfl, rfl, rfl, ?_, ?_⟩
  · exact foldl_fetch_ok_any fetch_ok _ gaps_in_cache
  · intro hg _
    rw [hg, Bool.true_or]

/-- Witness for the amended C3 at the counterexample inputs: warming
triggers with session 14 over highest seen 12. -/
theorem c3_witness :
    (false || decide ((12 : Nat) < 14)) = true
    ∧ (session_window_update exFetchFails13 (some 14) 12 false exSpamOld
        exOverlay).highest_session_seen = 14
    ∧ (session_window_update exFetchFails13 (some 14) 12 false exSpamOld exOverlay).overlay
      = note_earliest_session exOverlay (14 - (DISPUTE_WINDOW - 1))
    ∧ (session_window_update exFetchFails13 (some 14) 12 false exSpamOld exOverlay).spam_slots
      = exSpamOld.prune_old (14 - (DISPUTE_WINDOW - 1)) :=
  ⟨by decide,
    (c3_amended_session_window exFetchFails13 14 12 false exSpamOld exOverlay (by decide)).1,
    (c3_amended_session_window exFetchFails13 14 12 false exSpamOld exOverlay (by decide)).2.1,
    (c3_amended_session_window exFetchFails13 14 12 false exSpamOld exOverlay (by decide)).2.2.1⟩

/-! ## The event loop: `handle_incoming` and one loop iteration (claim C7) -/

/-- Modelled from the spec: the duration for which a concluded dispute
still counts as active ("filtered to non-concluded-or-recently-concluded",
§6); `crate::status` is not among the sources. -/
def ACTIVE_DURATION : Nat := 180

/-- Modelled from the spec: a dispute is listed by `ActiveDisputes` when it
is not concluded, or concluded recently (within `ACTIVE_DURATION` of its
conclusion timestamp). -/
def dispute_is_active (now : Nat) : DisputeStatus → Bool
  | .ConcludedFor ts => decide (now < ts + ACTIVE_DURATION)
  | .ConcludedAgainst ts => decide (now < ts + ACTIVE_DURATION)
  | .PostConcluded => false
  | _ => true

/-- Modelled from the spec: `get_active_with_status` filters the
recent-disputes map to the active ones (§6). -/
def get_active_with_status (now : Nat) (rd : RecentDisputes) : RecentDisputes :=
  rd.filter (fun e => dispute_is_active now e.2)

/-- `Initialized::issue_local_statement` (initialized.rs:1165-1300).  The
keystore signing loop over controlled indices that have not voted is a
collaborator computation (keystore and vote contents are not among the
sources); its result enters as the oracle `inp.local_statements`: the
validator indices for which a local statement was signed.  For each such
statement a dispute message is sent when `make_dispute_message` succeeds
(`mk v`), and when any statement was signed the handler imports them
through `handle_import_statements`, ignoring the returned result. -/
def issue_local_statement (highest_session_seen : Nat) (inp : ImportInputs) (mk : Nat → Bool)
    (receipt : CandidateReceiptData) (session : Nat) (overlay : Overlay) (sp : SpamSlots) :
    Overlay × SpamSlots × List Effect :=
  match inp.env with
  | none => (overlay, sp, [])
  | some _ =>
    let effs := inp.local_statements.filterMap (fun v =>
      if mk v then some (Effect.sendDispute v) else none)
    if inp.local_statements.isEmpty then (overlay, sp, effs)
    else
      let o := handle_import_statements highest_session_seen inp mk (.Provides receipt)
        session overlay sp
      (o.overlay, o.spam, effs ++ o.effects)

/-- The `DisputeCoordinatorMessage` variants handled by `handle_incoming`.
For `ImportStatements` the statements payload is consumed by the engine
oracle, so only the receipt, the session, and whether a
`pending_confirmation` one-shot was supplied are carried. -/
inductive DCMessage where
  | importStatements (receipt : CandidateReceiptData) (session : Nat)
      (pending_confirmation : Bool)
  | recentDisputes
  | activeDisputes
  | queryCandidateVotes (query : List (Nat × Nat))
  | issueLocalStatement (session : Nat) (chash : Nat) (receipt : CandidateReceiptData)
      (valid : Bool)
  | determineUndisputedChain (base_number base_hash : Nat)
      (descriptions : List BlockDescription)
  deriving DecidableEq

/-- The outcome of `handle_incoming`: the overlay and spam slots after
handling, the effects performed during handling (replies to one-shot
channels included), and the effects the returned `confirm_write` closure
will perform after the flush (`deferred`). -/
structure HandleResult where
  overlay : Overlay
  spam : SpamSlots
  effects : List Effect
  deferred : List Effect
  deriving DecidableEq

/-- `Initialized::handle_incoming` (initialized.rs:614-746).  Replies to
one-shot channels are effects performed during handling; only an
`ImportStatements` with a `ValidImport` outcome returns a non-trivial
confirmation closure (its send is deferred), while an `InvalidImport`
outcome reports during handling (initialized.rs:651-657). -/
def handle_incoming (highest_session_seen : Nat) (inp : ImportInputs) (mk : Nat → Bool)
    (now : Nat) (message : DCMessage) (overlay : Overlay) (sp : SpamSlots) : HandleResult :=
  match message with
  | .importStatements receipt session pending_confirmation =>
    let o := handle_import_statements highest_session_seen inp mk (.Provides receipt)
      session overlay sp
    match o.result with
    | .InvalidImport =>
      ⟨o.overlay, o.spam,
        o.effects
          ++ (if pending_confirmation then [Effect.confirmImport .InvalidImport] else []),
        []⟩
    | .ValidImport =>
      ⟨o.overlay, o.spam, o.effects,
        if pending_confirmation then [Effect.confirmImport .ValidImport] else []⟩
  | .recentDisputes =>
    ⟨overlay, sp, [Effect.replyRecentDisputes (overlay.recent_disputes.getD [])], []⟩
  | .activeDisputes =>
    ⟨overlay, sp,
      [Effect.replyActiveDisputes (get_active_with_status now (overlay.recent_disputes.getD []))],
      []⟩
  | .queryCandidateVotes query =>
    ⟨overlay, sp,
      [Effect.replyCandidateVotes (query.filterMap (fun k =>
        (Overlay.load_candidate_votes overlay k.1 k.2).map (fun v => (k.1, k.2, v))))],
      []⟩
  | .issueLocalStatement session _chash receipt _valid =>
    let r := issue_local_statement highest_session_seen inp mk receipt session overlay sp
    ⟨r.1, r.2.1, r.2.2, []⟩
  | .determineUndisputedChain base_number base_hash descriptions =>
    ⟨overlay, sp,
      [Effect.replyUndisputedChain
        (determine_undisputed_chain overlay.recent_disputes base_number base_hash descriptions)],
      []⟩

/-- One event of a loop iteration: an effect, or the flush of the overlay
to the backend. -/
inductive Event where
  | eff (e : Effect)
  | flush
  deriving DecidableEq

/-- One iteration of `run_until_error` for an inbound message
(initialized.rs:211-279): create a fresh overlay over the backend columns,
handle the message, flush the overlay iff it is non-empty, then run the
confirmation closure. -/
def loop_step (highest_session_seen : Nat) (inp : ImportInputs) (mk : Nat → Bool) (now : Nat)
    (message : DCMessage) (backend_earliest : Option Nat)
    (backend_recent : Option RecentDisputes)
    (backend_votes : List ((Nat × Nat) × CandidateVotesData)) (sp : SpamSlots) : List Event :=
  let hr := handle_incoming highest_session_seen inp mk now message
    ⟨backend_earliest, backend_recent, backend_votes, false⟩ sp
  hr.effects.map Event.eff
    ++ (if hr.overlay.dirty then [Event.flush] else [])
    ++ hr.deferred.map Event.eff

theorem loop_step_eq (highest_session_seen : Nat) (inp : ImportInputs) (mk : Nat → Bool)
    (now : Nat) (message : DCMessage) (be : Option Nat) (brd : Option RecentDisputes)
    (bcv : List ((Nat × Nat) × CandidateVotesData)) (sp : SpamSlots) :
    loop_step highest_session_seen inp mk now message be brd bcv sp
      = (handle_incoming highest_session_seen inp mk now message ⟨be, brd, bcv, false⟩
          sp).effects.map Event.eff
        ++ (if (handle_incoming highest_session_seen inp mk now message ⟨be, brd, bcv, false⟩
              sp).overlay.dirty then [Event.flush] else [])
        ++ (handle_incoming highest_session_seen inp mk now message ⟨be, brd, bcv, false⟩
            sp).deferred.map Event.eff := rfl

theorem confirm_not_in_import_effects (highest_session_seen : Nat) (inp : ImportInputs)
    (mk : Nat → Bool) (rc : MaybeCandidateReceipt) (session : Nat) (ov : Overlay)
    (sp : SpamSlots) (res : ImportStatementsResult) :
    Effect.confirmImport res
      ∉ (handle_import_statements highest_session_seen inp mk rc session ov sp).effects := by
  intro hmem
  rcases import_effect_shape highest_session_seen inp mk rc session ov sp _ hmem with
    ⟨p, s, c, h⟩ | ⟨v, h⟩ | ⟨bs, h⟩
  · cases h
  · cases h
  · cases h

theorem confirm_not_in_issue_local (highest_session_seen : Nat) (inp : ImportInputs)
    (mk : Nat → Bool) (receipt : CandidateReceiptData) (session : Nat) (ov : Overlay)
    (sp : SpamSlots) (res : ImportStatementsResult) :
    Effect.confirmImport res
      ∉ (issue_local_statement highest_session_seen inp mk receipt session ov sp).2.2 := by
  intro hmem
  unfold issue_local_statement at hmem
  revert hmem
  cases inp.env with
  | none => intro hmem; cases hmem
  | some e =>
    by_cases hemp : inp.local_statements.isEmpty = true
    · rw [if_pos hemp]
      intro hmem
      rcases List.mem_filterMap.mp hmem with ⟨v, _, hv⟩
      revert hv
      by_cases hmk : mk v = true
      · rw [if_pos hmk]
        intro hv
        cases hv
      · rw [if_neg hmk]
        intro hv
        cases hv
    · rw [if_neg hemp]
      intro hmem
      rcases List.mem_append.mp hmem with hl | hr
      · rcases List.mem_filterMap.mp hl with ⟨v, _, hv⟩
        revert hv
        by_cases hmk : mk v = true
        · rw [if_pos hmk]
          intro hv
          cases hv
        · rw [if_neg hmk]
          intro hv
          cases hv
      · exact confirm_not_in_import_effects highest_session_seen inp mk (.Provides receipt)
          session ov sp res hr

theorem flush_not_mem_map_eff (l : List Effect) : Event.flush ∉ l.map Event.eff := by
  intro h
  rcases List.mem_map.mp h with ⟨e, _, he⟩
  cases he

theorem confirm_valid_not_mem_map_eff (l : List Effect)
    (h : Effect.confirmImport .ValidImport ∉ l) :
    Event.eff (Effect.confirmImport .ValidImport) ∉ l.map Event.eff := by
  intro hmem
  rcases List.mem_map.mp hmem with ⟨e, he, heq⟩
  injection heq with h1
  exact h (h1 ▸ he)

/-- In a trace of the form `handling ++ (flush when dirty) ++ deferred`,
every flush position precedes every position of the deferred ValidImport
confirmation, provided the handling segment contains neither a flush nor
that confirmation and the deferred segment contains no flush. -/
theorem flush_precedes_confirm (A C : List Event) (dirty : Bool)
    (hA1 : Event.flush ∉ A) (hC1 : Event.flush ∉ C)
    (hA2 : Event.eff (Effect.confirmImport .ValidImport) ∉ A) :
    ∀ i j, (A ++ (if dirty then [Event.flush] else []) ++ C).get? i = some Event.flush →
      (A ++ (if dirty then [Event.flush] else []) ++ C).get? j
        = some (Event.eff (Effect.confirmImport .ValidImport)) → i < j := by
  intro i j hi hj
  cases dirty with
  | false =>
    exfalso
    rw [if_neg (by simp)] at hi
    have hmem := List.get?_mem hi
    rcases List.mem_append.mp hmem with h | h
    · rcases List.mem_append.mp h with h' | h'
      · exact hA1 h'
      · cases h'
    · exact hC1 h
  | true =>
    rw [if_pos rfl] at hi hj
    have hi' : i = A.length := by
      rcases Nat.lt_trichotomy i A.length with hlt | heq | hgt
      · exfalso
        rw [List.append_assoc, List.get?_append hlt] at hi
        exact hA1 (List.get?_mem hi)
      · exact heq
      · exfalso
        rw [List.append_assoc, List.get?_append_right (Nat.le_of_lt hgt)] at hi
        rcases Nat.exists_eq_add_of_lt hgt with ⟨k, hk⟩
        have hik : i - A.length = k + 1 := by omega
        rw [hik] at hi
        have : C.get? k = some Event.flush := hi
        exact hC1 (List.get?_mem this)
    have hj' : A.length < j := by
      rcases Nat.lt_trichotomy j A.length with hlt | heq | hgt
      · exfalso
        rw [List.append_assoc, List.get?_append hlt] at hj
        exact hA2 (List.get?_mem hj)
      · exfalso
        rw [List.append_assoc, List.get?_append_right (Nat.le_of_eq heq.symm)] at hj
        rw [heq] at hj
        simp at hj
      · exact hgt
    omega

/-- Claim C7: for every inbound message processed by the event loop, the
overlay flush to the backend precedes the deferred caller confirmation in
the iteration's trace, and only an `ImportStatements` request whose
outcome is `ValidImport` has its confirmation deferred until after the
flush; an `InvalidImport` outcome is confirmed immediately during
handling, and every other reply-carrying message kind replies immediately
during handling (`IssueLocalStatement` carries no confirmation channel). -/
theorem c7_flush_before_deferred_confirmation (highest_session_seen now : Nat)
    (inp : ImportInputs) (mk : Nat → Bool) (message : DCMessage)
    (be : Option Nat) (brd : Option RecentDisputes)
    (bcv : List ((Nat × Nat) × CandidateVotesData)) (sp : SpamSlots)
    (hr : HandleResult) (events : List Event)
    (hhr : hr = handle_incoming highest_session_seen inp mk now message
      ⟨be, brd, bcv, false⟩ sp)
    (hevents : events = loop_step highest_session_seen inp mk now message be brd bcv sp) :
    (∀ ef ∈ hr.deferred,
      ef = Effect.confirmImport .ValidImport
      ∧ ∃ rc s, message = DCMessage.importStatements rc s true
        ∧ (handle_import_statements highest_session_seen inp mk (.Provides rc) s
            ⟨be, brd, bcv, false⟩ sp).result = .ValidImport)
    ∧ (∀ rc s, message = DCMessage.importStatements rc s true →
        (handle_import_statements highest_session_seen inp mk (.Provides rc) s
          ⟨be, brd, bcv, false⟩ sp).result = .InvalidImport →
        Effect.confirmImport .InvalidImport ∈ hr.effects ∧ hr.deferred = [])
    ∧ (∀ i j, events.get? i = some Event.flush →
        events.get? j = some (Event.eff (Effect.confirmImport .ValidImport)) → i < j)
    ∧ (message = DCMessage.recentDisputes →
        ∃ l, Effect.replyRecentDisputes l ∈ hr.effects)
    ∧ (message = DCMessage.activeDisputes →
        ∃ l, Effect.replyActiveDisputes l ∈ hr.effects)
    ∧ (∀ q, message = DCMessage.queryCandidateVotes q →
        ∃ l, Effect.replyCandidateVotes l ∈ hr.effects)
    ∧ (∀ a b ds, message = DCMessage.determineUndisputedChain a b ds →
        ∃ best, Effect.replyUndisputedChain best ∈ hr.effects) := by
  subst hhr
  subst hevents
  rw [loop_step_eq]
  cases message with
  | importStatements rc s pc =>
    cases ho : (handle_import_statements highest_session_seen inp mk (.Provides rc) s
        ⟨be, brd, bcv, false⟩ sp).result with
    | InvalidImport =>
      have hhi : handle_incoming highest_session_seen inp mk now
          (.importStatements rc s pc) ⟨be, brd, bcv, false⟩ sp
          = ⟨(handle_import_statements highest_session_seen inp mk (.Provides rc) s
                ⟨be, brd, bcv, false⟩ sp).overlay,
              (handle_import_statements highest_session_seen inp mk (.Provides rc) s
                ⟨be, brd, bcv, false⟩ sp).spam,
              (handle_import_statements highest_session_seen inp mk (.Provides rc) s
                ⟨be, brd, bcv, false⟩ sp).effects
                ++ (if pc then [Effect.confirmImport .InvalidImport] else []),
              []⟩ := by
        simp [handle_incoming, ho]
      rw [hhi]
      have hA2 : Effect.confirmImport .ValidImport
          ∉ (handle_import_statements highest_session_seen inp mk (.Provides rc) s
              ⟨be, brd, bcv, false⟩ sp).effects
            ++ (if pc then [Effect.confirmImport .InvalidImport] else []) := by
        intro hmem
        rcases List.mem_append.mp hmem with h | h
        · exact confirm_not_in_import_effects highest_session_seen inp mk (.Provides rc) s
            ⟨be, brd, bcv, false⟩ sp .ValidImport h
        · revert h
          by_cases hpc : pc = true
          · rw [if_pos hpc]
            intro h
            have := List.mem_singleton.mp h
            injection this with h1
            cases h1
          · rw [if_neg hpc]
            intro h
            cases h
      refine ⟨?_, ?_, ?_, ?_, ?_, ?_, ?_⟩
      · intro ef hef
        cases hef
      · intro rc' s' hmsg _
        injection hmsg with h1 h2 h3
        subst h1
        subst h2
        subst h3
        constructor
        · apply List.mem_append.mpr
          right
          rw [if_pos rfl]
          exact List.mem_singleton.mpr rfl
        · rfl
      · exact flush_precedes_confirm _ _ _
          (flush_not_mem_map_eff _) (flush_not_mem_map_eff _)
          (confirm_valid_not_mem_map_eff _ hA2)
      · intro h
        cases h
      · intro h
        cases h
      · intro q h
        cases h
      · intro a b ds h
        cases h
    | ValidImport =>
      have hhi : handle_incoming highest_session_seen inp mk now
          (.importStatements rc s pc) ⟨be, brd, bcv, false⟩ sp
          = ⟨(handle_import_statements highest_session_seen inp mk (.Provides rc) s
                ⟨be, brd, bcv, false⟩ sp).overlay,
              (handle_import_statements highest_session_seen inp mk (.Provides rc) s
                ⟨be, brd, bcv, false⟩ sp).spam,
              (handle_import_statements highest_session_seen inp mk (.Provides rc) s
                ⟨be, brd, bcv, false⟩ sp).effects,
              if pc then [Effect.confirmImport .ValidImport] else []⟩ := by
        simp [handle_incoming, ho]
      rw [hhi]
      refine ⟨?_, ?_, ?_, ?_, ?_, ?_, ?_⟩
      · intro ef hef
        revert hef
        by_cases hpc : pc = true
        · rw [if_pos hpc]
          intro hef
          rcases List.mem_singleton.mp hef with rfl
          subst hpc
          exact ⟨rfl, rc, s, rfl, ho⟩
        · rw [if_neg hpc]
          intro hef
          cases hef
      · intro rc' s' hmsg hres
        injection hmsg with h1 h2 h3
        subst h1
        subst h2
        rw [ho] at hres
        cases hres
      · exact flush_precedes_confirm _ _ _
          (flush_not_mem_map_eff _) (flush_not_mem_map_eff _)
          (confirm_valid_not_mem_map_eff _
            (confirm_not_in_import_effects highest_session_seen inp mk (.Provides rc) s
              ⟨be, brd, bcv, false⟩ sp .ValidImport))
      · intro h
        cases h
      · intro h
        cases h
      · intro q h
        cases h
      · intro a b ds h
        cases h
  | recentDisputes =>
    refine ⟨?_, ?_, ?_, ?_, ?_, ?_, ?_⟩
    · intro ef hef
      cases hef
    · intro rc' s' hmsg
      cases hmsg
    · exact flush_precedes_confirm _ _ _
        (flush_not_mem_map_eff _) (flush_not_mem_map_eff _)
        (confirm_valid_not_mem_map_eff _ (by
          intro h
          have := List.mem_singleton.mp h
          cases this))
    · intro _
      exact ⟨_, List.mem_singleton.mpr rfl⟩
    · intro h
      cases h
    · intro q h
      cases h
    · intro a b ds h
      cases h
  | activeDisputes =>
    refine ⟨?_, ?_, ?_, ?_, ?_, ?_, ?_⟩
    · intro ef hef
      cases hef
    · intro rc' s' hmsg
      cases hmsg
    · exact flush_precedes_confirm _ _ _
        (flush_not_mem_map_eff _) (flush_not_mem_map_eff _)
        (confirm_valid_not_mem_map_eff _ (by
          intro h
          have := List.mem_singleton.mp h
          cases this))
    · intro h
      cases h
    · intro _
      exact ⟨_, List.mem_singleton.mpr rfl⟩
    · intro q h
      cases h
    · intro a b ds h
      cases h
  | queryCandidateVotes q =>
    refine ⟨?_, ?_, ?_, ?_, ?_, ?_, ?_⟩
    · intro ef hef
      cases hef
    · intro rc' s' hmsg
      cases hmsg
    · exact flush_precedes_confirm _ _ _
        (flush_not_mem_map_eff _) (flush_not_mem_map_eff _)
        (confirm_valid_not_mem_map_eff _ (by
          intro h
          have := List.mem_singleton.mp h
          cases this))
    · intro h
      cases h
    · intro h
      cases h
    · intro q' h
      exact ⟨_, List.mem_singleton.mpr rfl⟩
    · intro a b ds h
      cases h
  | issueLocalStatement s ch receipt valid =>
    refine ⟨?_, ?_, ?_, ?_, ?_, ?_, ?_⟩
    · intro ef hef
      cases hef
    · intro rc' s' hmsg
      cases hmsg
    · exact flush_precedes_confirm _ _ _
        (flush_not_mem_map_eff _) (flush_not_mem_map_eff _)
        (confirm_valid_not_mem_map_eff _
          (confirm_not_in_issue_local highest_session_seen inp mk receipt s
            ⟨be, brd, bcv, false⟩ sp .ValidImport))
    · intro h
      cases h
    · intro h
      cases h
    · intro q h
      cases h
    · intro a b ds h
      cases h
  | determineUndisputedChain a b ds =>
    refine ⟨?_, ?_, ?_, ?_, ?_, ?_, ?_⟩
    · intro ef hef
      cases hef
    · intro rc' s' hmsg
      cases hmsg
    · exact flush_precedes_confirm _ _ _
        (flush_not_mem_map_eff _) (flush_not_mem_map_eff _)
        (confirm_valid_not_mem_map_eff _ (by
          intro h
          have := List.mem_singleton.mp h
          cases this))
    · intro h
      cases h
    · intro h
      cases h
    · intro q h
      cases h
    · intro a' b' ds' h
      exact ⟨_, List.mem_singleton.mpr rfl⟩

/-- Witness for C7 at a concrete `RecentDisputes` query. -/
theorem c7_witness :
    (∀ ef ∈ (handle_incoming 12 exInputsValid exMk 0 DCMessage.recentDisputes
        ⟨none, none, [], false⟩ exSpamFull).deferred,
      ef = Effect.confirmImport .ValidImport
      ∧ ∃ rc s, DCMessage.recentDisputes = DCMessage.importStatements rc s true
        ∧ (handle_import_statements 12 exInputsValid exMk (.Provides rc) s
            ⟨none, none, [], false⟩ exSpamFull).result = .ValidImport)
    ∧ (∀ rc s, DCMessage.recentDisputes = DCMessage.importStatements rc s true →
        (handle_import_statements 12 exInputsValid exMk (.Provides rc) s
          ⟨none, none, [], false⟩ exSpamFull).result = .InvalidImport →
        Effect.confirmImport .InvalidImport
            ∈ (handle_incoming 12 exInputsValid exMk 0 DCMessage.recentDisputes
                ⟨none, none, [], false⟩ exSpamFull).effects
        ∧ (handle_incoming 12 exInputsValid exMk 0 DCMessage.recentDisputes
            ⟨none, none, [], false⟩ exSpamFull).deferred = [])
    ∧ (∀ i j, (loop_step 12 exInputsValid exMk 0 DCMessage.recentDisputes none none []
            exSpamFull).get? i = some Event.flush →
        (loop_step 12 exInputsValid exMk 0 DCMessage.recentDisputes none none []
            exSpamFull).get? j = some (Event.eff (Effect.confirmImport .ValidImport)) →
        i < j)
    ∧ (DCMessage.recentDisputes = DCMessage.recentDisputes →
        ∃ l, Effect.replyRecentDisputes l
          ∈ (handle_incoming 12 exInputsValid exMk 0 DCMessage.recentDisputes
              ⟨none, none, [], false⟩ exSpamFull).effects)
    ∧ (DCMessage.recentDisputes = DCMessage.activeDisputes →
        ∃ l, Effect.replyActiveDisputes l
          ∈ (handle_incoming 12 exInputsValid exMk 0 DCMessage.recentDisputes
              ⟨none, none, [], false⟩ exSpamFull).effects)
    ∧ (∀ q, DCMessage.recentDisputes = DCMessage.queryCandidateVotes q →
        ∃ l, Effect.replyCandidateVotes l
          ∈ (handle_incoming 12 exInputsValid exMk 0 DCMessage.recentDisputes
              ⟨none, none, [], false⟩ exSpamFull).effects)
    ∧ (∀ a b ds, DCMessage.recentDisputes = DCMessage.determineUndisputedChain a b ds →
        ∃ best, Effect.replyUndisputedChain best
          ∈ (handle_incoming 12 exInputsValid exMk 0 DCMessage.recentDisputes
              ⟨none, none, [], false⟩ exSpamFull).effects) :=
  c7_flush_before_deferred_confirmation 12 0 exInputsValid exMk DCMessage.recentDisputes
    none none [] exSpamFull _ _ rfl rfl

end DisputeCoordinator
